import Mathlib

/-!
Verification of the nsrlsearch ingestion pipeline and storage clients.

Shallow embedding of the relevant parts of nsrlsearch/client.py and
nsrlsearch/ingest.py. Python exceptions are modelled by the PyExc type and
fallible functions return Except PyExc. Byte strings are lists of Nat
(each below 256). The Elasticsearch store is modelled as association
lists keyed by document id, with index-by-id acting as replace-or-append
upsert (the same semantics Elasticsearch gives for index operations with
an explicit id).
-/

namespace Nsrlsearch

/-- Python exception values that the modelled code can raise. -/
inductive PyExc where
  | typeError
  | keyError (key : String)
  | valueError (msg : String)
  | invalidNsrlRdsContent (msg : String)
  deriving DecidableEq, Repr

/-- Python str.lower, modelled characterwise (all data in the claims is
ASCII, where Char.toLower agrees with Python lower). -/
def str_lower (s : String) : String :=
  String.mk (s.data.map Char.toLower)

theorem str_lower_length (s : String) : (str_lower s).length = s.length := by
  show (s.data.map Char.toLower).length = s.data.length
  exact List.length_map s.data Char.toLower

/-- client.py get_digest_type (lines 15-33): classify a digest string by
exact length only; 32 is md5, 40 is sha1, 8 is crc32, anything else
raises ValueError. -/
def get_digest_type (digest : String) : Except PyExc String :=
  if digest.length = 32 then Except.ok "md5"
  else if digest.length = 40 then Except.ok "sha1"
  else if digest.length = 8 then Except.ok "crc32"
  else Except.error
    (PyExc.valueError ("Unknown digest type with len " ++ toString digest.length))

/-- C7: the digest classifier maps length 32 to md5, 40 to sha1, 8 to
crc32, fails with a ValueError (the InvalidDigest kind of the spec) on
every other length, and its result depends only on the length of the
input string, never on character content or case. -/
theorem digest_classifier_by_length_only (s : String) :
    (s.length = 32 → get_digest_type s = Except.ok "md5") ∧
    (s.length = 40 → get_digest_type s = Except.ok "sha1") ∧
    (s.length = 8 → get_digest_type s = Except.ok "crc32") ∧
    (s.length ≠ 32 → s.length ≠ 40 → s.length ≠ 8 →
      get_digest_type s = Except.error
        (PyExc.valueError ("Unknown digest type with len " ++ toString s.length))) ∧
    (∀ t : String, s.length = t.length → get_digest_type s = get_digest_type t) := by
  refine ⟨?_, ?_, ?_, ?_, ?_⟩
  · intro h; simp [get_digest_type, h]
  · intro h; simp [get_digest_type, h]
  · intro h; simp [get_digest_type, h]
  · intro h32 h40 h8; simp [get_digest_type, h32, h40, h8]
  · intro t h; simp [get_digest_type, h]

/-- Witness for C7 at concrete digests of each length and one invalid one. -/
theorem digest_classifier_by_length_only_witness :
    get_digest_type "0123456789abcdef0123456789abcdef" = Except.ok "md5" ∧
    get_digest_type "0123456789abcdef0123456789abcdef01234567" = Except.ok "sha1" ∧
    get_digest_type "DEADBEEF" = Except.ok "crc32" ∧
    get_digest_type "xyz" = Except.error
      (PyExc.valueError ("Unknown digest type with len " ++ toString (3 : Nat))) := by
  refine ⟨?_, ?_, ?_, ?_⟩
  · exact (digest_classifier_by_length_only _).1 (by decide)
  · exact (digest_classifier_by_length_only _).2.1 (by decide)
  · exact (digest_classifier_by_length_only _).2.2.1 (by decide)
  · exact (digest_classifier_by_length_only _).2.2.2.1 (by decide) (by decide) (by decide)

/-- One row of the NSRLFile.txt table as unpacked by put_files
(client.py line 384): sha1, md5, crc32, filename, size, prod_code,
os_code plus a trailing unused column. The size field arrives as a
decimal string in the CSV; int(size) is modelled by carrying it as Nat. -/
structure FileRec where
  sha1 : String
  md5 : String
  crc32 : String
  filename : String
  size : Nat
  prod_code : String
  os_code : String
  special_code : String
  deriving DecidableEq, Repr

/-- The source document body built for a file record by EsClient.put_files
(client.py lines 392-400) and, parent field aside, by put_product_file
(lines 368-377): digests lower-cased, size as int. -/
structure FileDoc where
  md5 : String
  sha1 : String
  crc32 : String
  filename : String
  size : Nat
  prod_code : String
  os_code : String
  deriving DecidableEq, Repr

/-- Document id used by both EsClient.put_files (line 391) and
EsClient.put_product_file (line 367): prod_code joined to the
lower-cased sha1. -/
def es_file_doc_id (prod_code sha1 : String) : String :=
  prod_code ++ "_" ++ str_lower sha1

/-- Source document for one file record in EsClient.put_files. -/
def es_file_doc (r : FileRec) : FileDoc :=
  ⟨str_lower r.md5, str_lower r.sha1, str_lower r.crc32,
   r.filename, r.size, r.prod_code, r.os_code⟩

/-- One bulk action of EsClient.put_files: the document id and source. -/
def es_file_action (r : FileRec) : String × FileDoc :=
  (es_file_doc_id r.prod_code r.sha1, es_file_doc r)

/-- Loop body of EsClient.put_files (client.py lines 381-415). State is
the remaining records, the pending actions buffer and the running count.
A bulk write is flushed at the top of an iteration when count is a
nonzero multiple of chunk_size, and the remainder is flushed after the
loop when the buffer is nonempty. Returns the list of flushed bulk
writes and the final count. Python would raise ZeroDivisionError for
chunk_size zero on a nonempty stream; that input is outside every claim
(with Nat, count % 0 = count, so the condition is then never true). -/
def es_put_files_aux (chunk_size : Nat) :
    List FileRec → List (String × FileDoc) → Nat →
      List (List (String × FileDoc)) × Nat
  | [], actions, count =>
    (if actions.length ≠ 0 then [actions] else [], count)
  | r :: rest, actions, count =>
    if count % chunk_size = 0 ∧ count ≠ 0 then
      let res := es_put_files_aux chunk_size rest [es_file_action r] (count + 1)
      (actions :: res.1, res.2)
    else
      es_put_files_aux chunk_size rest (actions ++ [es_file_action r]) (count + 1)

/-- EsClient.put_files: returns the sequence of bulk writes it issues and
the count it returns. -/
def es_put_files (files : List FileRec) (chunk_size : Nat) :
    List (List (String × FileDoc)) × Nat :=
  es_put_files_aux chunk_size files [] 0

theorem es_put_files_aux_count (chunk_size : Nat) (recs : List FileRec) :
    ∀ actions count,
      (es_put_files_aux chunk_size recs actions count).2 = count + recs.length := by
  induction recs with
  | nil => intro actions count; simp [es_put_files_aux]
  | cons r rest ih =>
    intro actions count
    simp only [es_put_files_aux]
    split
    · simp [ih]; omega
    · simp [ih]; omega

/-- Number of in-loop flushes performed while m records remain and the
count stands at k. -/
def in_loop_flushes (chunk_size : Nat) : Nat → Nat → Nat
  | 0, _ => 0
  | m + 1, k =>
    (if k % chunk_size = 0 ∧ k ≠ 0 then 1 else 0) + in_loop_flushes chunk_size m (k + 1)

theorem es_put_files_aux_chunks_len (chunk_size : Nat) (recs : List FileRec) :
    ∀ actions count, (actions = [] ↔ count = 0) →
      (es_put_files_aux chunk_size recs actions count).1.length =
        in_loop_flushes chunk_size recs.length count +
          (if count + recs.length = 0 then 0 else 1) := by
  induction recs with
  | nil =>
    intro actions count hinv
    simp only [es_put_files_aux, List.length_nil, in_loop_flushes, Nat.add_zero]
    by_cases h : count = 0
    · have : actions = [] := hinv.mpr h
      simp [this, h]
    · have : actions ≠ [] := fun he => h (hinv.mp he)
      have hlen : actions.length ≠ 0 := by
        intro hl; exact this (List.eq_nil_of_length_eq_zero hl)
      simp [hlen, h]
  | cons r rest ih =>
    intro actions count hinv
    simp only [es_put_files_aux, List.length_cons, in_loop_flushes]
    split
    · rename_i hcond
      have h1 : (([es_file_action r] : List (String × FileDoc)) = [] ↔ count + 1 = 0) := by
        simp
      have := ih [es_file_action r] (count + 1) h1
      simp only [List.length_cons, this, hcond]
      have : count + 1 + rest.length ≠ 0 := by omega
      have hc : count + (rest.length + 1) ≠ 0 := by omega
      simp [this, hc, if_pos hcond]
      omega
    · rename_i hcond
      have h1 : ((actions ++ [es_file_action r]) = [] ↔ count + 1 = 0) := by
        simp
      have := ih (actions ++ [es_file_action r]) (count + 1) h1
      simp only [this]
      have h2 : count + 1 + rest.length ≠ 0 := by omega
      have h3 : count + (rest.length + 1) ≠ 0 := by omega
      simp [h2, h3, if_neg hcond]

theorem in_loop_flushes_pos (chunk_size : Nat) (_hc : 0 < chunk_size) :
    ∀ m k, 1 ≤ k →
      in_loop_flushes chunk_size m k = (k + m - 1) / chunk_size - (k - 1) / chunk_size := by
  intro m
  induction m with
  | zero => intro k hk; simp [in_loop_flushes]
  | succ m ih =>
    intro k hk
    have hrec := ih (k + 1) (by omega)
    simp only [in_loop_flushes, hrec]
    have hkk : k + 1 - 1 = k := by omega
    have hkm : k + 1 + m - 1 = k + m := by omega
    have hkm2 : k + (m + 1) - 1 = k + m := by omega
    rw [hkk, hkm, hkm2]
    have hsucc : k / chunk_size =
        (k - 1) / chunk_size + if chunk_size ∣ k then 1 else 0 := by
      have h := Nat.succ_div (k - 1) chunk_size
      have hk1 : k - 1 + 1 = k := by omega
      rw [hk1] at h
      exact h
    have hmono1 : (k - 1) / chunk_size ≤ k / chunk_size :=
      Nat.div_le_div_right (by omega)
    have hmono2 : k / chunk_size ≤ (k + m) / chunk_size :=
      Nat.div_le_div_right (by omega)
    by_cases hd : chunk_size ∣ k
    · have hmod : k % chunk_size = 0 := Nat.mod_eq_zero_of_dvd hd
      have hne : k ≠ 0 := by omega
      rw [if_pos ⟨hmod, hne⟩]
      rw [if_pos hd] at hsucc
      omega
    · have hmod : ¬(k % chunk_size = 0 ∧ k ≠ 0) := by
        intro hcontra
        exact hd (Nat.dvd_of_mod_eq_zero hcontra.1)
      rw [if_neg hmod]
      rw [if_neg hd] at hsucc
      omega

theorem in_loop_flushes_zero (chunk_size : Nat) (hc : 0 < chunk_size) (m : Nat) :
    in_loop_flushes chunk_size m 0 = (m - 1) / chunk_size := by
  cases m with
  | zero => simp [in_loop_flushes]
  | succ m =>
    simp only [in_loop_flushes]
    rw [in_loop_flushes_pos chunk_size hc m 1 (by omega)]
    simp

/-- C4: for every record sequence and every chunk size among 1, 1000 and
the stream length N, EsClient.put_files issues exactly ceil(N over
chunk_size) bulk writes (the remainder flushed at stream end) and
returns a count equal to N. -/
theorem batch_writer_flush_count (recs : List FileRec) (chunk_size : Nat)
    (h : chunk_size = 1 ∨ chunk_size = 1000 ∨ chunk_size = recs.length) :
    (es_put_files recs chunk_size).1.length =
        (recs.length + chunk_size - 1) / chunk_size ∧
    (es_put_files recs chunk_size).2 = recs.length := by
  constructor
  · have hlen := es_put_files_aux_chunks_len chunk_size recs [] 0 (by simp)
    simp only [es_put_files, Nat.zero_add] at hlen ⊢
    rw [hlen]
    by_cases hN : recs.length = 0
    · rcases h with h1 | h1 | h1 <;>
        simp [hN, in_loop_flushes, h1]
    · have hc : 0 < chunk_size := by
        rcases h with h1 | h1 | h1 <;> omega
      rw [in_loop_flushes_zero chunk_size hc]
      have hsplit : recs.length + chunk_size - 1 = (recs.length - 1) + chunk_size := by
        omega
      rw [if_neg (by omega), hsplit, Nat.add_div_right _ hc]
  · have := es_put_files_aux_count chunk_size recs [] 0
    simpa [es_put_files] using this

/-- A sample record used to instantiate witnesses on concrete data. -/
def sample_rec (tag : String) : FileRec :=
  ⟨"00A1B2" ++ tag, "FFEE" ++ tag, "CAFE" ++ tag, "file_" ++ tag,
   1024, "1234", "189", "_"⟩

/-- Witness for C4 on a three-record stream with chunk size 1. -/
theorem batch_writer_flush_count_witness :
    (es_put_files [sample_rec "a", sample_rec "b", sample_rec "c"] 1).1.length =
        ([sample_rec "a", sample_rec "b", sample_rec "c"].length + 1 - 1) / 1 ∧
    (es_put_files [sample_rec "a", sample_rec "b", sample_rec "c"] 1).2 =
        [sample_rec "a", sample_rec "b", sample_rec "c"].length :=
  batch_writer_flush_count [sample_rec "a", sample_rec "b", sample_rec "c"] 1
    (Or.inl rfl)

/-- A bulk index request applied to a store mapping document ids to
documents: each action indexes its source at its id, overwriting any
previous document at that id (Elasticsearch index-by-id upsert). -/
def bulk_index (store : String → Option FileDoc) :
    List (String × FileDoc) → (String → Option FileDoc)
  | [] => store
  | (k, d) :: rest =>
    bulk_index (fun x => if x = k then some d else store x) rest

/-- The last document written for a given id by an action list. -/
def find_last_write : List (String × FileDoc) → String → Option FileDoc
  | [], _ => none
  | (k, d) :: rest, x =>
    match find_last_write rest x with
    | some d2 => some d2
    | none => if k = x then some d else none

theorem bulk_index_lookup (acts : List (String × FileDoc)) :
    ∀ (store : String → Option FileDoc) (x : String),
      bulk_index store acts x =
        match find_last_write acts x with
        | some d => some d
        | none => store x := by
  induction acts with
  | nil => intro store x; simp [bulk_index, find_last_write]
  | cons a rest ih =>
    intro store x
    obtain ⟨k, d⟩ := a
    simp only [bulk_index, find_last_write, ih]
    cases hfl : find_last_write rest x with
    | some d2 => simp
    | none =>
      simp only []
      by_cases hk : k = x
      · subst hk; simp
      · have hx : x ≠ k := fun he => hk he.symm
        simp [hx, hk]

theorem bulk_index_idempotent (acts : List (String × FileDoc))
    (store : String → Option FileDoc) :
    bulk_index (bulk_index store acts) acts = bulk_index store acts := by
  funext x
  rw [bulk_index_lookup, bulk_index_lookup]
  cases hfl : find_last_write acts x with
  | some d => simp
  | none => simp [bulk_index_lookup, hfl]

theorem es_put_files_aux_join (chunk_size : Nat) (recs : List FileRec) :
    ∀ actions count,
      (es_put_files_aux chunk_size recs actions count).1.flatten =
        actions ++ recs.map es_file_action := by
  induction recs with
  | nil =>
    intro actions count
    by_cases h : actions.length ≠ 0
    · simp [es_put_files_aux, h]
    · have he : actions = [] := List.eq_nil_of_length_eq_zero (by omega)
      simp [es_put_files_aux, h, he]
  | cons r rest ih =>
    intro actions count
    simp only [es_put_files_aux]
    split
    · simp [List.flatten, ih]
    · simp [ih]

/-- The body EsClient.put_product_file indexes (client.py lines
368-377), its parent field included. -/
structure ProductFileDoc where
  parent : String
  md5 : String
  sha1 : String
  crc32 : String
  size : Nat
  filename : String
  os_code : String
  prod_code : String
  deriving DecidableEq, Repr

/-- EsClient.put_product_file (client.py lines 365-379): build the doc
id from prod_code and the lower-cased sha1 (line 367, the same
expression as put_files line 391), build the body with lower-cased
digests and integer size, and index it by that id into the prodfile
index - an upsert overwriting any previous document at that id. The
store maps ids of file-type documents to their bodies. -/
def put_product_file (store : String → Option ProductFileDoc)
    (prod_code sha1 md5 crc32 fn : String) (size : Nat) (os_code : String) :
    String → Option ProductFileDoc :=
  fun x =>
    if x = es_file_doc_id prod_code sha1 then
      some ⟨prod_code, str_lower md5, str_lower sha1, str_lower crc32,
        size, fn, os_code, prod_code⟩
    else store x

/-- A caller writing a sequence of file records through repeated
put_product_file calls, one per record (as the server route putting on
products under prod_code does). -/
def put_product_file_seq (store : String → Option ProductFileDoc) :
    List FileRec → (String → Option ProductFileDoc)
  | [] => store
  | r :: rest =>
    put_product_file_seq
      (put_product_file store r.prod_code r.sha1 r.md5 r.crc32 r.filename
        r.size r.os_code) rest

/-- Index-by-id upsert of a list of documents into a store, the write at
each id overwriting any previous document there. -/
def upsert_fold {α : Type} (store : String → Option α) :
    List (String × α) → (String → Option α)
  | [] => store
  | (k, d) :: rest => upsert_fold (fun x => if x = k then some d else store x) rest

/-- The last document written at a given id by an action list. -/
def last_write {α : Type} : List (String × α) → String → Option α
  | [], _ => none
  | (k, d) :: rest, x =>
    match last_write rest x with
    | some d2 => some d2
    | none => if k = x then some d else none

theorem upsert_fold_lookup {α : Type} (acts : List (String × α)) :
    ∀ (store : String → Option α) (x : String),
      upsert_fold store acts x =
        match last_write acts x with
        | some d => some d
        | none => store x := by
  induction acts with
  | nil => intro store x; simp [upsert_fold, last_write]
  | cons a rest ih =>
    intro store x
    obtain ⟨k, d⟩ := a
    simp only [upsert_fold, last_write, ih]
    cases hlw : last_write rest x with
    | some d2 => simp
    | none =>
      simp only []
      by_cases hk : k = x
      · subst hk; simp
      · have hx : x ≠ k := fun he => hk he.symm
        simp [hx, hk]

theorem upsert_fold_idempotent {α : Type} (acts : List (String × α))
    (store : String → Option α) :
    upsert_fold (upsert_fold store acts) acts = upsert_fold store acts := by
  funext x
  rw [upsert_fold_lookup, upsert_fold_lookup]
  cases hlw : last_write acts x with
  | some d => simp
  | none => simp [upsert_fold_lookup, hlw]

/-- The id-and-body pairs a record sequence makes put_product_file
write. -/
def product_file_actions (recs : List FileRec) : List (String × ProductFileDoc) :=
  recs.map (fun r =>
    (es_file_doc_id r.prod_code r.sha1,
     ⟨r.prod_code, str_lower r.md5, str_lower r.sha1, str_lower r.crc32,
      r.size, r.filename, r.os_code, r.prod_code⟩))

theorem put_product_file_seq_eq_upsert_fold (recs : List FileRec) :
    ∀ store, put_product_file_seq store recs =
      upsert_fold store (product_file_actions recs) := by
  induction recs with
  | nil => intro store; rfl
  | cons r rest ih =>
    intro store
    simp only [put_product_file_seq, product_file_actions, List.map_cons,
      upsert_fold, ih]
    rfl

/-- C3: every file record written by put_files or put_product_file is
stored under the deterministic id formed from prod_code and the
lower-cased sha1 (client.py lines 391 and 367 build the same
expression); hence writing the identical record sequence twice, through
either writer, produces the identical id sequence both times and leaves
the store exactly as a single ingestion does, with no duplicate file
documents. -/
theorem file_identity_deterministic_and_idempotent
    (recs : List FileRec) (chunk_size : Nat)
    (store : String → Option FileDoc)
    (pstore : String → Option ProductFileDoc) :
    ((es_put_files recs chunk_size).1.flatten.map Prod.fst =
        recs.map (fun r => r.prod_code ++ "_" ++ str_lower r.sha1)) ∧
    ((product_file_actions recs).map Prod.fst =
        recs.map (fun r => r.prod_code ++ "_" ++ str_lower r.sha1)) ∧
    (put_product_file_seq pstore recs =
        upsert_fold pstore (product_file_actions recs)) ∧
    (bulk_index (bulk_index store (es_put_files recs chunk_size).1.flatten)
        (es_put_files recs chunk_size).1.flatten =
      bulk_index store (es_put_files recs chunk_size).1.flatten) ∧
    (put_product_file_seq (put_product_file_seq pstore recs) recs =
      put_product_file_seq pstore recs) := by
  refine ⟨?_, ?_, ?_, ?_, ?_⟩
  · rw [show (es_put_files recs chunk_size).1.flatten =
        [] ++ recs.map es_file_action from
          es_put_files_aux_join chunk_size recs [] 0]
    simp [es_file_action, es_file_doc_id]
  · simp [product_file_actions, es_file_doc_id]
  · exact put_product_file_seq_eq_upsert_fold recs pstore
  · exact bulk_index_idempotent _ _
  · simp only [put_product_file_seq_eq_upsert_fold]
    exact upsert_fold_idempotent _ _

/-- Python dict item assignment: replace the value of an existing key in
place, otherwise append the pair at the end. The dicts built here never
hold duplicate keys, so replacing the first hit is exact. -/
def assoc_put {α : Type} : List (String × α) → String → α → List (String × α)
  | [], k, v => [(k, v)]
  | (k1, v1) :: rest, k, v =>
    if k1 = k then (k, v) :: rest else (k1, v1) :: assoc_put rest k v

/-- Python dict read access returning an option. -/
def assoc_get {α : Type} (d : List (String × α)) (k : String) : Option α :=
  (d.find? (fun p => p.1 == k)).map Prod.snd

theorem assoc_get_put_same {α : Type} (d : List (String × α)) (k : String) (v : α) :
    assoc_get (assoc_put d k v) k = some v := by
  induction d with
  | nil => simp [assoc_put, assoc_get]
  | cons p rest ih =>
    obtain ⟨k1, v1⟩ := p
    by_cases h : k1 = k
    · simp [assoc_put, assoc_get, h]
    · simp only [assoc_put, if_neg h]
      simp only [assoc_get, List.find?] at ih ⊢
      have hb : (k1 == k) = false := by simp [h]
      simp [hb, ih]

theorem assoc_get_put_other {α : Type} (d : List (String × α)) (k k2 : String) (v : α)
    (h : k2 ≠ k) : assoc_get (assoc_put d k v) k2 = assoc_get d k2 := by
  induction d with
  | nil => simp [assoc_put, assoc_get, Ne.symm h]
  | cons p rest ih =>
    obtain ⟨k1, v1⟩ := p
    by_cases h1 : k1 = k
    · subst h1
      have hb : (k1 == k2) = false := by simp [Ne.symm h]
      simp [assoc_put, assoc_get, List.find?, hb]
    · simp only [assoc_put, if_neg h1]
      simp only [assoc_get, List.find?] at ih ⊢
      cases hb : (k1 == k2) <;> simp [hb, ih]

/-- Inner loop of ingest.py case_insensitive_file_match (lines 69-78):
scan the whole file list and record, for the wanted name wf, every
case-insensitive hit into the mapping (so a later hit overwrites an
earlier one; there is no early exit). Filenames are modelled as text;
the Python 3 branch decoding isoparser byte names via latin-1 before
comparison is the same comparison on the decoded text. -/
def match_files_for (wf : String) (fm : List (String × String))
    (files : List String) : List (String × String) :=
  files.foldl
    (fun fm2 f => if str_lower wf = str_lower f then assoc_put fm2 wf f else fm2) fm

/-- ingest.py case_insensitive_file_match (lines 56-79). -/
def case_insensitive_file_match (wanted_files files : List String) :
    List (String × String) :=
  wanted_files.foldl (fun fm wf => match_files_for wf fm files) []

/-- The last case-insensitive hit for wf in the file list, which is what
the overwriting inner loop leaves in the mapping. -/
def last_match (wf : String) : List String → Option String
  | [] => none
  | f :: rest =>
    match last_match wf rest with
    | some g => some g
    | none => if str_lower wf = str_lower f then some f else none

theorem match_files_for_get (wf : String) (files : List String) :
    ∀ fm, assoc_get (match_files_for wf fm files) wf =
      match last_match wf files with
      | some g => some g
      | none => assoc_get fm wf := by
  induction files with
  | nil => intro fm; simp [match_files_for, last_match]
  | cons f rest ih =>
    intro fm
    simp only [match_files_for, List.foldl_cons] at ih ⊢
    rw [ih]
    simp only [last_match]
    cases hlm : last_match wf rest with
    | some g => simp
    | none =>
      by_cases he : str_lower wf = str_lower f
      · simp [he, assoc_get_put_same]
      · simp [he]

theorem match_files_for_get_other (wf wf2 : String) (files : List String)
    (h : wf2 ≠ wf) :
    ∀ fm, assoc_get (match_files_for wf fm files) wf2 = assoc_get fm wf2 := by
  induction files with
  | nil => intro fm; simp [match_files_for]
  | cons f rest ih =>
    intro fm
    simp only [match_files_for, List.foldl_cons] at ih ⊢
    rw [ih]
    by_cases he : str_lower wf = str_lower f
    · simp [he, assoc_get_put_other _ _ _ _ h]
    · simp [he]

theorem case_insensitive_outer_not_mem (files : List String) (wf : String) :
    ∀ (wanted : List String) fm, wf ∉ wanted →
      assoc_get (wanted.foldl (fun fm2 w => match_files_for w fm2 files) fm) wf =
        assoc_get fm wf := by
  intro wanted
  induction wanted with
  | nil => intro fm _; simp
  | cons w rest ih =>
    intro fm hni
    have hw : wf ≠ w := fun he => hni (by simp [he])
    have hr : wf ∉ rest := fun hm => hni (by simp [hm])
    simp only [List.foldl_cons]
    rw [ih _ hr, match_files_for_get_other w wf files hw]

theorem case_insensitive_outer_mem (files : List String) (wf : String) :
    ∀ (wanted : List String) fm, wf ∈ wanted →
      assoc_get (wanted.foldl (fun fm2 w => match_files_for w fm2 files) fm) wf =
        match last_match wf files with
        | some g => some g
        | none => assoc_get fm wf := by
  intro wanted
  induction wanted with
  | nil => intro fm hmem; simp at hmem
  | cons w rest ih =>
    intro fm hmem
    simp only [List.foldl_cons]
    by_cases hw : w = wf
    · subst hw
      by_cases hr : w ∈ rest
      · rw [ih _ hr, match_files_for_get]
        cases hlm : last_match w files <;> simp
      · rw [case_insensitive_outer_not_mem files w rest _ hr, match_files_for_get]
    · have hr : wf ∈ rest := by
        rcases List.mem_cons.mp hmem with he | hm
        · exact absurd he.symm hw
        · exact hm
      rw [ih _ hr, match_files_for_get_other w wf files (fun he => hw he.symm)]

theorem case_insensitive_file_match_get (wanted files : List String) (wf : String)
    (hmem : wf ∈ wanted) :
    assoc_get (case_insensitive_file_match wanted files) wf = last_match wf files := by
  rw [case_insensitive_file_match, case_insensitive_outer_mem files wf wanted [] hmem]
  cases hlm : last_match wf files <;> simp [assoc_get]

theorem last_match_spec (wf : String) (files : List String) :
    ∀ g, last_match wf files = some g →
      g ∈ files ∧ str_lower wf = str_lower g := by
  induction files with
  | nil => intro g h; simp [last_match] at h
  | cons f rest ih =>
    intro g h
    simp only [last_match] at h
    split at h
    · rename_i g2 hlm
      cases h
      obtain ⟨h1, h2⟩ := ih g hlm
      exact ⟨by simp [h1], h2⟩
    · rename_i hlm
      split at h
      · rename_i he
        cases h
        exact ⟨by simp, he⟩
      · cases h

theorem last_match_eq_none_iff (wf : String) (files : List String) :
    last_match wf files = none ↔ ∀ f ∈ files, str_lower wf ≠ str_lower f := by
  induction files with
  | nil => simp [last_match]
  | cons f rest ih =>
    simp only [last_match]
    cases hlm : last_match wf rest with
    | some g =>
      simp only []
      constructor
      · intro h; exact absurd h (by simp)
      · intro h
        have := (ih.mpr (fun x hx => h x (by simp [hx])))
        rw [hlm] at this
        exact absurd this (by simp)
    | none =>
      constructor
      · intro h
        intro x hx
        rcases List.mem_cons.mp hx with he | hm
        · subst he
          by_cases he2 : str_lower wf = str_lower x
          · rw [if_pos he2] at h; exact absurd h (by simp)
          · exact he2
        · exact (ih.mp hlm) x hm
      · intro h
        rw [if_neg (h f (by simp))]

/-- C9: for every wanted logical filename with a case-insensitive hit in
the actual file list, the mapping returned by case_insensitive_file_match
binds that logical name to an actual filename from the list whose
lower-casing matches, whatever the casing on either side and whatever
the order of the two lists. -/
theorem source_locator_maps_case_insensitively
    (wanted files : List String) (wf : String)
    (hmem : wf ∈ wanted)
    (hmatch : ∃ f ∈ files, str_lower wf = str_lower f) :
    ∃ g, assoc_get (case_insensitive_file_match wanted files) wf = some g ∧
      g ∈ files ∧ str_lower wf = str_lower g := by
  rw [case_insensitive_file_match_get wanted files wf hmem]
  cases hlm : last_match wf files with
  | none =>
    obtain ⟨f, hf, he⟩ := hmatch
    exact absurd he ((last_match_eq_none_iff wf files).mp hlm f hf)
  | some g =>
    obtain ⟨h1, h2⟩ := last_match_spec wf files g hlm
    exact ⟨g, rfl, h1, h2⟩


/-- Witness for C9 on the example of the spec: NSRLMfg.txt against an
actual list holding nsrlmfg.TXT. -/
theorem source_locator_maps_case_insensitively_witness :
    ∃ g, assoc_get (case_insensitive_file_match ["NSRLMfg.txt"] ["nsrlmfg.TXT"])
        "NSRLMfg.txt" = some g ∧
      g ∈ ["nsrlmfg.TXT"] ∧ str_lower "NSRLMfg.txt" = str_lower g :=
  source_locator_maps_case_insensitively ["NSRLMfg.txt"] ["nsrlmfg.TXT"]
    "NSRLMfg.txt" (by decide) ⟨"nsrlmfg.TXT", by decide, by decide⟩

/-- ingest.py NsrlIngestor._get_nsrl_ingest_filenames (lines 156-162):
build the case-insensitive mapping, then walk the expected names in
order and raise InvalidNsrlRdsContent for the first one absent from the
mapping, the message naming that one file and the actual file list.
The error value carries exactly what the message interpolates. -/
def get_nsrl_ingest_filenames (files expected_files : List String) :
    Except (String × List String) (List (String × String)) :=
  let fmap := case_insensitive_file_match expected_files files
  match expected_files.find? (fun ef => (assoc_get fmap ef).isNone) with
  | some ef => Except.error (ef, files)
  | none => Except.ok fmap

/-- The single missing filename named by the raised error, if any. -/
def reported_missing (files expected_files : List String) : Option String :=
  match get_nsrl_ingest_filenames files expected_files with
  | Except.error e => some e.1
  | Except.ok _ => none

/-- C5 as stated: whenever a required name has no case-insensitive match,
the raised error names every required file absent from the actual list. -/
def names_every_missing_file (files expected_files : List String) : Prop :=
  ∀ ef ∈ expected_files, (∀ f ∈ files, str_lower ef ≠ str_lower f) →
    reported_missing files expected_files = some ef

/-- Counterexample to C5: with an empty actual list both required names
are missing, yet the error names only the first of them. -/
theorem source_locator_names_only_first_missing :
    ¬ names_every_missing_file [] ["NSRLMfg.txt", "NSRLOs.txt"] := by
  intro h
  have hmiss := h "NSRLOs.txt" (by decide) (by decide)
  exact absurd hmiss (by decide)

theorem find?_append_first (p : String → Bool) (x : String) (l2 : List String) :
    ∀ l1 : List String, (∀ e ∈ l1, p e = false) → p x = true →
      List.find? p (l1 ++ x :: l2) = some x := by
  intro l1
  induction l1 with
  | nil => intro _ hx; simp [List.find?, hx]
  | cons e rest ih =>
    intro hall hx
    have he : p e = false := hall e (by simp)
    simp only [List.cons_append, List.find?, he]
    exact ih (fun e2 h2 => hall e2 (by simp [h2])) hx

/-- C5 amended: when one or more required names are missing, the check
fails with InvalidNsrlRdsContent naming the first missing required name
(in required-list order) together with the actual file list, not every
missing name. -/
theorem source_locator_reports_first_missing
    (files pre post : List String) (ef : String)
    (hpre : ∀ e ∈ pre, ∃ f ∈ files, str_lower e = str_lower f)
    (hef : ∀ f ∈ files, str_lower ef ≠ str_lower f) :
    get_nsrl_ingest_filenames files (pre ++ ef :: post) = Except.error (ef, files) := by
  simp only [get_nsrl_ingest_filenames]
  have hfind :
      List.find?
        (fun e =>
          (assoc_get (case_insensitive_file_match (pre ++ ef :: post) files) e).isNone)
        (pre ++ ef :: post) = some ef := by
    apply find?_append_first
    · intro e hel
      have hmem : e ∈ pre ++ ef :: post := by simp [hel]
      rw [case_insensitive_file_match_get _ files e hmem]
      obtain ⟨f, hf, heq⟩ := hpre e hel
      cases hlm : last_match e files with
      | none => exact absurd heq ((last_match_eq_none_iff e files).mp hlm f hf)
      | some g => simp
    · have hmem : ef ∈ pre ++ ef :: post := by simp
      rw [case_insensitive_file_match_get _ files ef hmem]
      rw [(last_match_eq_none_iff ef files).mpr hef]
      rfl
  rw [hfind]

/-- Witness for the amended C5: two required names, empty actual list;
the error names the first required name only. -/
theorem source_locator_reports_first_missing_witness :
    get_nsrl_ingest_filenames [] ["NSRLMfg.txt", "NSRLOs.txt"] =
      Except.error ("NSRLMfg.txt", []) :=
  source_locator_reports_first_missing [] [] ["NSRLOs.txt"] "NSRLMfg.txt"
    (by simp) (by simp)

/-- Failure modes of the file-table section of ingest_from_iso: the
ZipFile open or csv parse can fail, or put_files can fail writing to the
backend. -/
inductive IsoFileErr where
  | parseFailure
  | writeFailure
  deriving DecidableEq, Repr

/-- Filesystem model for the temporary-file claim: the list of existing
paths. os.unlink removes the path; modelling removal by filter keeps it
exact whether or not the path was listed once. -/
def fs_unlink (fs : List String) (p : String) : List String :=
  fs.filter (fun q => q ≠ p)

/-- Python try-finally: run the body, then always run the cleanup on the
resulting filesystem, whatever the body returned. -/
def try_finally (body : List String → Except IsoFileErr Nat × List String)
    (cleanup : List String → List String) (fs : List String) :
    Except IsoFileErr Nat × List String :=
  let r := body fs
  (r.1, cleanup r.2)

/-- The body of the try block in ingest_from_iso (ingest.py lines
240-259): copy the zip stream into the already-created temporary file,
open it as a ZipFile, parse and put_files. All of its filesystem writes
go to the temporary file, which mkstemp already created, so the
filesystem set of paths is unchanged; the outcome (count on success,
parse or write failure) is abstracted as a parameter since it depends on
stream content and backend behaviour. -/
def iso_filetable_body (outcome : Except IsoFileErr Nat)
    (fs : List String) : Except IsoFileErr Nat × List String :=
  (outcome, fs)

/-- The file-table section of NsrlIngestor.ingest_from_iso (ingest.py
lines 234-266): tempfile.mkstemp creates the temporary path (the file
descriptor is closed at once), the try block processes it and the
finally block unlinks it. The inner try-except around os.unlink only
swallows an OSError from the unlink call itself, which the filesystem
model has no failing case for. -/
def ingest_from_iso_filetable (fs : List String) (temp_fp : String)
    (outcome : Except IsoFileErr Nat) : Except IsoFileErr Nat × List String :=
  try_finally (iso_filetable_body outcome) (fun fs2 => fs_unlink fs2 temp_fp)
    (temp_fp :: fs)

/-- C6: for every starting filesystem and every outcome of the file-table
processing of disk-image ingestion, be it success, parse failure or
write failure, the temporary copy is gone from the resulting filesystem
and the outcome itself propagates unchanged. -/
theorem iso_temp_file_always_deleted (fs : List String) (temp_fp : String)
    (outcome : Except IsoFileErr Nat) :
    (ingest_from_iso_filetable fs temp_fp outcome).1 = outcome ∧
    temp_fp ∉ (ingest_from_iso_filetable fs temp_fp outcome).2 := by
  constructor
  · rfl
  · intro hmem
    simp only [ingest_from_iso_filetable, try_finally, iso_filetable_body,
      fs_unlink] at hmem
    have := List.of_mem_filter hmem
    simp at this

/-- Manufacturer document (client.py put_manufacturer, lines 234-240). -/
structure MfgDoc where
  code : String
  name : String
  deriving DecidableEq, Repr

/-- Operating-system document (client.py put_os, lines 261-269). -/
structure OsDoc where
  code : String
  name : String
  version : String
  mfg_code : String
  deriving DecidableEq, Repr

/-- Product document (client.py put_product, lines 308-318). -/
structure ProdDoc where
  code : String
  name : String
  version : String
  os_code : String
  os_name : String
  mfg_code : String
  mfg_name : String
  language : String
  application_type : String
  deriving DecidableEq, Repr

/-- The Elasticsearch indices used by EsClient, each keyed by document
id. -/
structure EsState where
  mfg : List (String × MfgDoc)
  os : List (String × OsDoc)
  products : List (String × ProdDoc)
  files : List (String × FileDoc)
  deriving DecidableEq, Repr

def empty_es : EsState := ⟨[], [], [], []⟩

/-- EsClient.get_os (client.py lines 463-469): es.get by id; a
NotFoundError yields None, otherwise the document source is returned. -/
def get_os (st : EsState) (code : String) : Option OsDoc :=
  assoc_get st.os code

/-- EsClient.get_manufacturer (client.py lines 471-477). -/
def get_manufacturer (st : EsState) (code : String) : Option MfgDoc :=
  assoc_get st.mfg code

/-- A Python try-except ValueError block around a computation. -/
def except_value_error {α : Type} (body : Except PyExc α)
    (handler : String → Except PyExc α) : Except PyExc α :=
  match body with
  | Except.error (PyExc.valueError m) => handler m
  | other => other

/-- Resolution of os_name inside EsClient.put_product (client.py lines
294-299): the try body subscripts the result of get_os with the key
name; when get_os returns None that subscripting raises TypeError, and
only ValueError is caught by the handler that would raise
InvalidNsrlRdsContent. -/
def put_product_os_name (st : EsState) (os_code : String) : Except PyExc String :=
  except_value_error
    (match get_os st os_code with
     | none => Except.error PyExc.typeError
     | some d => Except.ok d.name)
    (fun _ => Except.error (PyExc.invalidNsrlRdsContent
      ("Could not resolve name for os with code " ++ os_code)))

/-- Resolution of mfg_name inside EsClient.put_product (client.py lines
300-306), with the same dead ValueError handler. -/
def put_product_mfg_name (st : EsState) (mfg_code : String) : Except PyExc String :=
  except_value_error
    (match get_manufacturer st mfg_code with
     | none => Except.error PyExc.typeError
     | some d => Except.ok d.name)
    (fun _ => Except.error (PyExc.invalidNsrlRdsContent
      ("Could not resolve name for manufacturer with code " ++ mfg_code)))

/-- EsClient.put_product (client.py lines 291-320): resolve missing
os_name then mfg_name, build the document and index it by product code. -/
def put_product (st : EsState)
    (code name version os_code mfg_code language application_type : String)
    (os_name mfg_name : Option String) : Except PyExc EsState :=
  match (match os_name with
         | some v => Except.ok v
         | none => put_product_os_name st os_code) with
  | Except.error e => Except.error e
  | Except.ok osn =>
    match (match mfg_name with
           | some v => Except.ok v
           | none => put_product_mfg_name st mfg_code) with
    | Except.error e => Except.error e
    | Except.ok mfgn =>
      let doc : ProdDoc :=
        ⟨code, name, version, os_code, osn, mfg_code, mfgn,
         language, application_type⟩
      Except.ok { st with products := assoc_put st.products code doc }

/-- One row of the NSRLProd.txt table as unpacked by put_products
(client.py line 325). -/
structure ProdRec where
  code : String
  name : String
  version : String
  os_code : String
  mfg_code : String
  language : String
  application_type : String
  deriving DecidableEq, Repr

/-- Manufacturer-name resolution in EsClient.put_products (client.py
lines 328-335): with an in-memory map, a plain dict subscript that
raises KeyError on a missing code and never consults the backend;
without it, a backend lookup whose None result makes the subscript raise
TypeError, which the handler converts into a ValueError naming the
code. -/
def put_products_mfg_name (st : EsState) (mfgs : Option (List (String × MfgDoc)))
    (mfg_code : String) : Except PyExc String :=
  match mfgs with
  | some m =>
    match assoc_get m mfg_code with
    | none => Except.error (PyExc.keyError mfg_code)
    | some d => Except.ok d.name
  | none =>
    match get_manufacturer st mfg_code with
    | none => Except.error (PyExc.valueError
        ("Manufacturer " ++ mfg_code ++ " not in data store"))
    | some d => Except.ok d.name

/-- Os-name resolution in EsClient.put_products (client.py lines
337-340): with an in-memory map, a dict subscript raising KeyError on a
missing code; without it, a backend lookup whose None result makes the
subscript raise TypeError with no handler at all. -/
def put_products_os_name (st : EsState) (oss : Option (List (String × OsDoc)))
    (os_code : String) : Except PyExc String :=
  match oss with
  | some m =>
    match assoc_get m os_code with
    | none => Except.error (PyExc.keyError os_code)
    | some d => Except.ok d.name
  | none =>
    match get_os st os_code with
    | none => Except.error PyExc.typeError
    | some d => Except.ok d.name

/-- Loop of EsClient.put_products (client.py lines 323-359): resolve
names for each product, accumulate the prods dict and the bulk actions;
any resolution failure aborts before the single bulk write at line 361,
so nothing at all is written in that case. -/
def put_products_loop (st : EsState) (mfgs : Option (List (String × MfgDoc)))
    (oss : Option (List (String × OsDoc))) :
    List ProdRec → List (String × ProdDoc) → List (String × ProdDoc) →
      Except PyExc (List (String × ProdDoc) × List (String × ProdDoc))
  | [], prods, actions => Except.ok (prods, actions)
  | r :: rest, prods, actions =>
    match put_products_mfg_name st mfgs r.mfg_code with
    | Except.error e => Except.error e
    | Except.ok mfgn =>
      match put_products_os_name st oss r.os_code with
      | Except.error e => Except.error e
      | Except.ok osn =>
        let doc : ProdDoc :=
          ⟨r.code, r.name, r.version, r.os_code, osn, r.mfg_code, mfgn,
           r.language, r.application_type⟩
        put_products_loop st mfgs oss rest
          (assoc_put prods r.code doc) (actions ++ [(r.code, doc)])

/-- EsClient.put_products (client.py lines 322-363): on success the
accumulated actions are applied as one bulk write and the prods dict is
returned. -/
def put_products (st : EsState) (products : List ProdRec)
    (mfgs : Option (List (String × MfgDoc)))
    (oss : Option (List (String × OsDoc))) :
    Except PyExc (EsState × List (String × ProdDoc)) :=
  match put_products_loop st mfgs oss products [] [] with
  | Except.error e => Except.error e
  | Except.ok (prods, actions) =>
    Except.ok
      ({ st with products :=
          actions.foldl (fun d a => assoc_put d a.1 a.2) st.products }, prods)

/-- C1: the claim says an unresolvable os or mfg code raises
InvalidReferenceData naming the code. The code instead raises, on an
empty backend with no in-memory maps: TypeError from put_product (the
except ValueError handler guarding the InvalidNsrlRdsContent raise never
fires because get_os returns None rather than raising), KeyError from
put_products when a map is supplied but lacks the code (the backend is
never consulted), and a plain ValueError from put_products for a
manufacturer missing from the backend. Nothing is written in each case,
which is the part of the claim the code does satisfy. -/
theorem put_product_unresolved_reference_exceptions :
    put_product empty_es "p1" "Prod" "1.0" "os1" "mfg1" "English" "Business"
        none none = Except.error PyExc.typeError ∧
    put_products empty_es [⟨"p1", "Prod", "1.0", "os1", "mfg1", "English",
        "Business"⟩] (some []) none = Except.error (PyExc.keyError "mfg1") ∧
    put_products empty_es [⟨"p1", "Prod", "1.0", "os1", "mfg1", "English",
        "Business"⟩] none none =
      Except.error (PyExc.valueError "Manufacturer mfg1 not in data store") := by
  refine ⟨rfl, rfl, rfl⟩

/-- What EsClient.get_digest returns for a hit (client.py lines
430-437): the file document source, with filename and prod_code popped
unless the corresponding flags are set. -/
structure DigestResult where
  md5 : String
  sha1 : String
  crc32 : String
  size : Nat
  os_code : String
  filename : Option String
  prod_code : Option String
  deriving DecidableEq, Repr

/-- Whether a stored file document matches a term query on the field
named by the digest type, with the lower-cased digest as the value. -/
def file_doc_matches (t : String) (digest_lower : String) (d : FileDoc) : Bool :=
  if t = "md5" then d.md5 = digest_lower
  else if t = "sha1" then d.sha1 = digest_lower
  else if t = "crc32" then d.crc32 = digest_lower
  else false

/-- EsClient.get_digest (client.py lines 417-437): classify the digest
(raising for bad lengths), run a size-1 term search on the file type,
return None for no hit, else the first hit with filename and prod_code
included only on request. Elasticsearch leaves the order of equal-score
term hits unspecified; the model returns the first stored match, which
is immaterial to the existence claims proved here. -/
def get_digest (st : EsState) (digest : String)
    (include_filename include_prod_code : Bool) :
    Except PyExc (Option DigestResult) :=
  match get_digest_type digest with
  | Except.error e => Except.error e
  | Except.ok t =>
    match (st.files.map Prod.snd).find? (file_doc_matches t (str_lower digest)) with
    | none => Except.ok none
    | some d =>
      Except.ok (some ⟨d.md5, d.sha1, d.crc32, d.size, d.os_code,
        if include_filename then some d.filename else none,
        if include_prod_code then some d.prod_code else none⟩)

/-- EsClient.get_digest_exists (client.py lines 439-440): get_digest is
not None. -/
def get_digest_exists (st : EsState) (digest : String) : Except PyExc Bool :=
  match get_digest st digest false false with
  | Except.error e => Except.error e
  | Except.ok r => Except.ok r.isSome

/-- HttpClient.get_digest (client.py lines 697-707) composed with the
server route for GET on files/<digest> (server.py lines 239-256): the
client validates the digest length, lower-cases it into the URL, and the
server (no exists parameter, include flags off) calls
EsClient.get_digest; a None result becomes a 404 which handle_response
maps back to None. -/
def http_get_digest (st : EsState) (digest : String) :
    Except PyExc (Option DigestResult) :=
  match get_digest_type digest with
  | Except.error e => Except.error e
  | Except.ok _ => get_digest st (str_lower digest) false false

/-- HttpClient.get_digest_exists (client.py lines 709-714) composed with
the same server route: the client validates the digest length and sends
exists=True; the server calls EsClient.get_digest_exists and answers 200
with a body for True and an empty 404 for False, which handle_response
turns back into True and False. -/
def http_get_digest_exists (st : EsState) (digest : String) : Except PyExc Bool :=
  match get_digest_type digest with
  | Except.error e => Except.error e
  | Except.ok _ => get_digest_exists st (str_lower digest)

theorem get_digest_type_str_lower (digest : String) :
    get_digest_type (str_lower digest) = get_digest_type digest := by
  simp [get_digest_type, str_lower_length]

/-- C10: for every digest of valid length (8, 32 or 40),
get_digest_exists answers true exactly when get_digest finds a record,
on the direct Elasticsearch client and on the HTTP client backed by the
server alike. -/
theorem digest_exists_iff_digest_found (st : EsState) (digest : String)
    (h : digest.length = 8 ∨ digest.length = 32 ∨ digest.length = 40) :
    (get_digest_exists st digest = Except.ok true ↔
      ∃ r, get_digest st digest false false = Except.ok (some r)) ∧
    (http_get_digest_exists st digest = Except.ok true ↔
      ∃ r, http_get_digest st digest = Except.ok (some r)) := by
  have ht : ∃ t, get_digest_type digest = Except.ok t := by
    rcases h with h1 | h1 | h1
    · exact ⟨"crc32", by simp [get_digest_type, h1]⟩
    · exact ⟨"md5", by simp [get_digest_type, h1]⟩
    · exact ⟨"sha1", by simp [get_digest_type, h1]⟩
  obtain ⟨t, ht⟩ := ht
  constructor
  · simp only [get_digest_exists, get_digest, ht]
    cases hfind : (st.files.map Prod.snd).find? (file_doc_matches t (str_lower digest)) with
    | none => simp
    | some d => simp
  · simp only [http_get_digest_exists, http_get_digest, get_digest_exists,
      get_digest, ht, get_digest_type_str_lower]
    cases hfind : (st.files.map Prod.snd).find?
        (file_doc_matches t (str_lower (str_lower digest))) with
    | none => simp
    | some d => simp

/-- Witness for C10 on a one-document store and a crc32-length digest
present in it, plus an empty store where it is absent. -/
theorem digest_exists_iff_digest_found_witness :
    ((get_digest_exists
        ⟨[], [], [], [("1234_aa", ⟨"m", "aa", "cafebabe", "f", 7, "1234", "189"⟩)]⟩
        "CAFEBABE" = Except.ok true ↔
      ∃ r, get_digest
        ⟨[], [], [], [("1234_aa", ⟨"m", "aa", "cafebabe", "f", 7, "1234", "189"⟩)]⟩
        "CAFEBABE" false false = Except.ok (some r)) ∧
    (http_get_digest_exists
        ⟨[], [], [], [("1234_aa", ⟨"m", "aa", "cafebabe", "f", 7, "1234", "189"⟩)]⟩
        "CAFEBABE" = Except.ok true ↔
      ∃ r, http_get_digest
        ⟨[], [], [], [("1234_aa", ⟨"m", "aa", "cafebabe", "f", 7, "1234", "189"⟩)]⟩
        "CAFEBABE" = Except.ok (some r))) :=
  digest_exists_iff_digest_found
    ⟨[], [], [], [("1234_aa", ⟨"m", "aa", "cafebabe", "f", 7, "1234", "189"⟩)]⟩
    "CAFEBABE" (Or.inl (by decide))

/-- A UTF-8 continuation byte. -/
def utf8_cont (b : Nat) : Bool := 128 ≤ b && b < 192

/-- Strict UTF-8 decoding of a byte sequence, the behaviour of Python
bytes.decode with utf-8: rejects truncated sequences, stray continuation
bytes, overlong encodings, surrogate code points and values above
U+10FFFF. -/
def utf8_decode : List Nat → Option (List Char)
  | [] => some []
  | b :: rest =>
    if b < 128 then
      (utf8_decode rest).map (fun s => Char.ofNat b :: s)
    else if b < 194 then
      none
    else if b < 224 then
      match rest with
      | [] => none
      | b2 :: rest2 =>
        if utf8_cont b2 then
          (utf8_decode rest2).map
            (fun s => Char.ofNat ((b - 192) * 64 + (b2 - 128)) :: s)
        else none
    else if b < 240 then
      match rest with
      | b2 :: b3 :: rest3 =>
        if utf8_cont b2 ∧ utf8_cont b3 ∧ (b = 224 → 160 ≤ b2) ∧
            (b = 237 → b2 < 160) then
          (utf8_decode rest3).map
            (fun s =>
              Char.ofNat ((b - 224) * 4096 + (b2 - 128) * 64 + (b3 - 128)) :: s)
        else none
      | _ => none
    else if b < 245 then
      match rest with
      | b2 :: b3 :: b4 :: rest4 =>
        if utf8_cont b2 ∧ utf8_cont b3 ∧ utf8_cont b4 ∧ (b = 240 → 144 ≤ b2) ∧
            (b = 244 → b2 < 144) then
          (utf8_decode rest4).map
            (fun s =>
              Char.ofNat ((b - 240) * 262144 + (b2 - 128) * 4096 +
                (b3 - 128) * 64 + (b4 - 128)) :: s)
        else none
      | _ => none
    else none

/-- The U+FFFD replacement character. -/
def repl_char : Char := Char.ofNat 65533

/-- Total UTF-8 decoding with replacement, the behaviour of Python
bytes.decode with utf-8 and errors replace: an undecodable position
yields the replacement character and decoding continues. (CPython
replaces maximal invalid subparts; this model replaces bytewise, a
granularity no claim observes since only totality matters.) -/
def utf8_decode_replace : List Nat → List Char
  | [] => []
  | b :: rest =>
    if b < 128 then Char.ofNat b :: utf8_decode_replace rest
    else if b < 194 then repl_char :: utf8_decode_replace rest
    else if b < 224 then
      match rest with
      | [] => [repl_char]
      | b2 :: rest2 =>
        if utf8_cont b2 then
          Char.ofNat ((b - 192) * 64 + (b2 - 128)) :: utf8_decode_replace rest2
        else repl_char :: utf8_decode_replace (b2 :: rest2)
    else if b < 240 then
      match rest with
      | b2 :: b3 :: rest3 =>
        if utf8_cont b2 ∧ utf8_cont b3 ∧ (b = 224 → 160 ≤ b2) ∧
            (b = 237 → b2 < 160) then
          Char.ofNat ((b - 224) * 4096 + (b2 - 128) * 64 + (b3 - 128)) ::
            utf8_decode_replace rest3
        else repl_char :: utf8_decode_replace (b2 :: b3 :: rest3)
      | short => repl_char :: utf8_decode_replace short
    else if b < 245 then
      match rest with
      | b2 :: b3 :: b4 :: rest4 =>
        if utf8_cont b2 ∧ utf8_cont b3 ∧ utf8_cont b4 ∧ (b = 240 → 144 ≤ b2) ∧
            (b = 244 → b2 < 144) then
          Char.ofNat ((b - 240) * 262144 + (b2 - 128) * 4096 +
            (b3 - 128) * 64 + (b4 - 128)) :: utf8_decode_replace rest4
        else repl_char :: utf8_decode_replace (b2 :: b3 :: b4 :: rest4)
      | short => repl_char :: utf8_decode_replace short
    else repl_char :: utf8_decode_replace rest
  termination_by l => l.length
  decreasing_by
    all_goals simp_wf
    all_goals omega

/-- ingest.py detect_and_decode (lines 82-105) for a byte-sequence line.
The statistical detector chardet.detect is the detect parameter: its
documented result carries encoding None when detection fails, and
decoding with None, line.decode(None), raises TypeError, which no clause
of the function catches. Decoding with a detected encoding is the
decode_with parameter; its failure (UnicodeDecodeError) falls through to
utf-8 decoding with replacement. The except UnicodeEncodeError clause
returning an already-decoded text value untouched cannot trigger for
byte input, because bytes.decode raises only UnicodeDecodeError. -/
def detect_and_decode (detect : List Nat → Option String)
    (decode_with : String → List Nat → Option (List Char))
    (line : List Nat) : Except PyExc (List Char) :=
  match utf8_decode line with
  | some s => Except.ok s
  | none =>
    match detect line with
    | none => Except.error PyExc.typeError
    | some enc =>
      match decode_with enc line with
      | some s => Except.ok s
      | none => Except.ok (utf8_decode_replace line)

/-- Counterexample to C2: on the byte 0x81, which strict UTF-8 rejects,
a detector answering None (as chardet does for such windows-1252-illegal
bytes) makes detect_and_decode raise TypeError instead of returning
text. -/
theorem detect_and_decode_raises_for_undetected_encoding :
    detect_and_decode (fun _ => none) (fun _ _ => none) [129] =
      Except.error PyExc.typeError := by
  rfl

/-- C2 amended: detect_and_decode returns decoded text and never raises
for every byte sequence on which the detector produces an encoding
whenever strict UTF-8 decoding fails; with no detected encoding the
TypeError above escapes. -/
theorem detect_and_decode_total_when_detector_detects
    (detect : List Nat → Option String)
    (decode_with : String → List Nat → Option (List Char))
    (line : List Nat)
    (h : utf8_decode line = none → (detect line).isSome = true) :
    ∃ s, detect_and_decode detect decode_with line = Except.ok s := by
  cases hu : utf8_decode line with
  | some s => exact ⟨s, by simp [detect_and_decode, hu]⟩
  | none =>
    have hd := h hu
    cases hdet : detect line with
    | none => rw [hdet] at hd; simp at hd
    | some enc =>
      cases hw : decode_with enc line with
      | none =>
        exact ⟨utf8_decode_replace line,
          by simp [detect_and_decode, hu, hdet, hw]⟩
      | some s => exact ⟨s, by simp [detect_and_decode, hu, hdet, hw]⟩

/-- Witness for the amended C2 on the invalid byte 0x81 with a detector
that does produce an encoding whose decode then fails, exercising the
replacement fallback. -/
theorem detect_and_decode_total_when_detector_detects_witness :
    ∃ s, detect_and_decode (fun _ => some "windows-1252") (fun _ _ => none)
      [129] = Except.ok s :=
  detect_and_decode_total_when_detector_detects
    (fun _ => some "windows-1252") (fun _ _ => none) [129] (fun _ => rfl)

end Nsrlsearch
